import Mathlib

/-!
# `tkn taskrun debug`: a shallow embedding of `pkg/cmd/taskrun/debug.go`

The Go file is glue around four external services: the TaskRun lister, the
interactive `survey` prompt, the Tekton / Kubernetes client set and the SPDY
executor.  They are taken as the fields of an environment `Env`; every call
the Go code makes to one of them is recorded, in order, in the `calls` of the
result, so that "without listing" or "exactly one selection call" are
statements about that list.  `*DebugOptions` is threaded explicitly: every
function takes the options and returns them in its `Step`.

A Go `error` is its message (`Outcome.err`), `nil` is `Outcome.nil`, and a
run-time panic (index out of range, nil dereference) is `Outcome.panic`.
Go strings are modelled by Lean strings (sequences of Unicode code points).
-/

namespace Tkn

/-! ## Go standard library: `unicode.IsSpace`, `strings.Fields` -/

/-- Go `unicode.IsSpace`: the Latin-1 spaces `\t \n \v \f \r`, space, U+0085,
U+00A0, and the code points of category Z. -/
def isSpace (c : Char) : Bool :=
  (9 ≤ c.toNat && c.toNat ≤ 13) || c.toNat = 0x20 || c.toNat = 0x85 || c.toNat = 0xA0 ||
  c.toNat = 0x1680 || (0x2000 ≤ c.toNat && c.toNat ≤ 0x200A) ||
  c.toNat = 0x2028 || c.toNat = 0x2029 || c.toNat = 0x202F || c.toNat = 0x205F ||
  c.toNat = 0x3000

/-- The loop of Go `strings.FieldsFunc(s, unicode.IsSpace)`: `cur` holds, in
reverse, the characters of the field being read (empty when Go's `start` is
negative, since a field in progress has at least one character). -/
def fieldsLoop : List Char → List Char → List String
  | [], cur => if cur = [] then [] else [String.mk cur.reverse]
  | c :: cs, cur =>
    if isSpace c then
      if cur = [] then fieldsLoop cs [] else String.mk cur.reverse :: fieldsLoop cs []
    else fieldsLoop cs (c :: cur)

/-- Go `strings.Fields`: the maximal runs of non-space characters of `s`. -/
def Fields (s : String) : List String := fieldsLoop s.data []

/-- Go `fmt` verb `%d` on an `int`: decimal digits, with a leading `-` for a
negative number. -/
def fmtD : Int → String
  | Int.ofNat n => Nat.repr n
  | Int.negSucc n => "-" ++ Nat.repr (n + 1)

/-! ## Data model -/

/-- The part of `cli.Params` the command reads: the namespace selected with
`-n` (the interface is declared outside this file). -/
structure cli.Params where
  Namespace : String
deriving DecidableEq, Repr

/-- The three handles of `cli.Stream`. -/
structure cli.Stream where
  In : String
  Out : String
  Err : String
deriving DecidableEq, Repr

/-- A `survey.AskOpt` value (an uninterpreted token). -/
structure AskOpt where
  id : Nat
deriving DecidableEq, Repr

/-- A client set `*cli.Clients` that is not nil, taken to be fully initialised
(an uninterpreted token); a nil pointer is `none` of `Option Clients`. -/
structure Clients where
  id : Nat
deriving DecidableEq, Repr

/-- The executor returned by `remotecommand.NewSPDYExecutor`. -/
structure Executor where
  id : Nat
deriving DecidableEq, Repr

/-- Go `DebugOptions`. -/
structure DebugOptions where
  Params : cli.Params
  TaskrunName : String
  DebugTaskrunName : String
  Last : Bool
  Limit : Int
  AskOpts : Option AskOpt
  Stream : Option cli.Stream
deriving DecidableEq, Repr

/-- `TaskRun.Status`, reduced to the field that is read. -/
structure TaskRunStatus where
  PodName : String
deriving DecidableEq, Repr

/-- A `v1beta1.TaskRun`, reduced to its name and status. -/
structure TaskRun where
  Name : String
  Status : TaskRunStatus
deriving DecidableEq, Repr

/-- Go `corev1.PodExecOptions`. -/
structure PodExecOptions where
  Command : List String
  Stdin : Bool
  Stdout : Bool
  Stderr : Bool
  TTY : Bool
  Container : String
deriving DecidableEq, Repr

/-- client-go `IsValidPathSegmentName`, as a test: a path segment may not be
"." or ".." and may not contain "/" or "%". -/
def IsValidPathSegmentName (name : String) : Bool :=
  !(name == "." || name == "..") && !(name.data.contains '/' || name.data.contains '%')

/-- The errors the builder methods of client-go `rest.Request` store in the
request. -/
inductive RequestError where
  | resourceAlreadySet (old new : String)
  | invalidResource (resource : String)
  | nameEmpty
  | nameAlreadySet (old new : String)
  | invalidName (resourceName : String)
  | namespaceAlreadySet (old new : String)
  | invalidNamespace (ns : String)
  | subresourceAlreadySet (old new : String)
  | invalidSubresource (sub : String)
deriving DecidableEq, Repr

/-- A client-go `rest.Request`: verb, resource, resource name, namespace (with
the flag telling whether it was set), subresource, the query parameters in the
order `Param` added them, the object handed to `VersionedParams`, and the
error stored by the first builder call that failed. -/
structure Request where
  verb : String
  resource : String
  resourceName : String
  namespaceSet : Bool
  ns : String
  subresource : String
  params : List (String × String)
  versioned : Option PodExecOptions
  err : Option RequestError
deriving DecidableEq, Repr

/-- `RESTClient().Post()`. -/
def Request.Post : Request :=
  { verb := "POST", resource := "", resourceName := "", namespaceSet := false, ns := "",
    subresource := "", params := [], versioned := none, err := none }

/-- `Request.Resource`: no effect once an error is stored; an error when the
resource is already set or is not a valid path segment. -/
def Request.Resource (r : Request) (resource : String) : Request :=
  if r.err.isSome then r
  else if r.resource ≠ "" then
    { r with err := some (RequestError.resourceAlreadySet r.resource resource) }
  else if IsValidPathSegmentName resource = false then
    { r with err := some (RequestError.invalidResource resource) }
  else { r with resource := resource }

/-- `Request.Name`: no effect once an error is stored; an error when the name
is empty, already set, or not a valid path segment. -/
def Request.Name (r : Request) (resourceName : String) : Request :=
  if r.err.isSome then r
  else if resourceName = "" then { r with err := some RequestError.nameEmpty }
  else if r.resourceName ≠ "" then
    { r with err := some (RequestError.nameAlreadySet r.resourceName resourceName) }
  else if IsValidPathSegmentName resourceName = false then
    { r with err := some (RequestError.invalidName resourceName) }
  else { r with resourceName := resourceName }

/-- `Request.Namespace`: no effect once an error is stored; an error when the
namespace is already set or is not a valid path segment. -/
def Request.Namespace (r : Request) (ns : String) : Request :=
  if r.err.isSome then r
  else if r.namespaceSet = true then
    { r with err := some (RequestError.namespaceAlreadySet r.ns ns) }
  else if IsValidPathSegmentName ns = false then
    { r with err := some (RequestError.invalidNamespace ns) }
  else { r with namespaceSet := true, ns := ns }

/-- `Request.SubResource`, called with one segment: no effect once an error is
stored; an error when the subresource is already set or is not a valid path
segment. -/
def Request.SubResource (r : Request) (sub : String) : Request :=
  if r.err.isSome then r
  else if r.subresource ≠ "" then
    { r with err := some (RequestError.subresourceAlreadySet r.subresource sub) }
  else if IsValidPathSegmentName sub = false then
    { r with err := some (RequestError.invalidSubresource sub) }
  else { r with subresource := sub }

/-- `Request.Param`: no effect once an error is stored; otherwise appends one
query parameter. -/
def Request.Param (r : Request) (k v : String) : Request :=
  if r.err.isSome then r else { r with params := r.params ++ [(k, v)] }

/-- `Request.VersionedParams`: no effect once an error is stored; otherwise
hands the options object to the request (how the codec encodes it is the
library's). -/
def Request.VersionedParams (r : Request) (o : PodExecOptions) : Request :=
  if r.err.isSome then r else { r with versioned := some o }

/-- One call made to an external service. -/
inductive Call where
  | GetAllTaskRuns (p : cli.Params) (limit : Int)
  | surveyAsk (name message : String) (options : List String) (askOpts : Option AskOpt)
  | Clients (p : cli.Params)
  | GetV1beta1 (cs : Option Clients) (name ns : String)
  | NewSPDYExecutor (cs : Clients) (method : String) (request : Request)
  | Println (request : Request)
  | Stream (exec : Executor) (stream : cli.Stream) (tty : Bool)
deriving DecidableEq, Repr

/-- The external services, as functions from the arguments of a call to its
result (`Except.error` carries the message of a non-nil Go error).
`Params.Clients()` answers a client set, `none` for a nil pointer, and an
error; the lookup is called with whatever client set that was. -/
structure Env where
  GetAllTaskRuns : cli.Params → Int → Except String (List String)
  surveyAsk : String → String → List String → Option AskOpt → Except String String
  Clients : cli.Params → Option Clients × Option String
  GetV1beta1 : Option Tkn.Clients → String → String → Except String TaskRun
  NewSPDYExecutor : Tkn.Clients → String → Request → Except String Executor
  Stream : Executor → cli.Stream → Bool → Option String

/-- How a Go function of result type `error` ends. -/
inductive Outcome where
  | nil
  | err (msg : String)
  | panic
deriving DecidableEq, Repr

/-- Result of running a function on `*DebugOptions`: how it ended, the options
afterwards, and the external calls it made, in order. -/
structure Step where
  ret : Outcome
  opts : DebugOptions
  calls : List Call
deriving DecidableEq, Repr

/-- Go `if err := f(); err != nil` with body `return err`, followed by the rest
of the function: the rest runs only when the first part returned `nil`. -/
def Step.andThen (r : Step) (k : DebugOptions → Step) : Step :=
  match r.ret with
  | Outcome.nil => { ret := (k r.opts).ret, opts := (k r.opts).opts, calls := r.calls ++ (k r.opts).calls }
  | _ => r

/-- Modelled from the spec: the constant `options.ResourceNameTaskRun` is
declared in package `options`, outside the visible sources; its value is taken
to be "taskrun", the resource the picker is specified to ask for and the one
case the `switch` of `Ask` handles. -/
def ResourceNameTaskRun : String := "taskrun"

/-! ## The functions of `debug.go` -/

/-- Go `(*DebugOptions).ValidateOpts`. -/
def ValidateOpts (opts : DebugOptions) : Step :=
  if opts.Limit ≤ 0 then
    { ret := Outcome.err ("limit was " ++ fmtD opts.Limit ++ " but must be a positive number"),
      opts := opts, calls := [] }
  else
    { ret := Outcome.nil, opts := opts, calls := [] }

/-- Go `(*DebugOptions).Ask`. -/
def Ask (env : Env) (opts : DebugOptions) (resource : String) (options : List String) : Step :=
  let message := "Select " ++ resource ++ ":"
  let call := Call.surveyAsk resource message options opts.AskOpts
  match env.surveyAsk resource message options opts.AskOpts with
  | Except.error err => { ret := Outcome.err err, opts := opts, calls := [call] }
  | Except.ok ans =>
    if resource = "taskrun" then
      match Fields ans with
      | [] => { ret := Outcome.panic, opts := opts, calls := [call] }
      | f :: _ =>
        let opts1 := { opts with TaskrunName := f }
        match Fields ans with
        | [] => { ret := Outcome.panic, opts := opts1, calls := [call] }
        | g :: _ =>
          { ret := Outcome.nil, opts := { opts1 with DebugTaskrunName := g ++ "-debug" },
            calls := [call] }
    else
      { ret := Outcome.nil, opts := opts, calls := [call] }

/-- Go `askRunNameForDebug`. -/
def askRunNameForDebug (env : Env) (opts : DebugOptions) : Step :=
  let call := Call.GetAllTaskRuns opts.Params opts.Limit
  match env.GetAllTaskRuns opts.Params opts.Limit with
  | Except.error err => { ret := Outcome.err err, opts := opts, calls := [call] }
  | Except.ok trs =>
    match trs with
    | [] => { ret := Outcome.err "No TaskRuns found", opts := opts, calls := [call] }
    | t0 :: _ =>
      if trs.length = 1 ∨ opts.Last = true then
        match Fields t0 with
        | [] => { ret := Outcome.panic, opts := opts, calls := [call] }
        | f :: _ =>
          let opts1 := { opts with TaskrunName := f }
          { ret := Outcome.nil,
            opts := { opts1 with DebugTaskrunName := opts1.TaskrunName ++ "-debug" },
            calls := [call] }
      else
        { ret := (Ask env opts ResourceNameTaskRun trs).ret,
          opts := (Ask env opts ResourceNameTaskRun trs).opts,
          calls := call :: (Ask env opts ResourceNameTaskRun trs).calls }

/-- The request built at lines 150-158 of `debug.go` for pod `podName`. -/
def execRequest (podName : String) (execOptions : PodExecOptions) : Request :=
  ((((((((((Request.Post.Resource "pods").Name podName).Namespace "default").SubResource "exec").Param
    "command" "sh").Param "container" "step-breakpoint").Param "stdin" "true").Param
    "stdout" "true").Param "tty" "true").VersionedParams execOptions)

/-- Go `runDebug`.  The error of `Params.Clients()` is discarded (line
129), so the client set may be nil: the lookup is still called with it, and
`cs.Kube` (line 150) then dereferences the nil pointer. -/
def runDebug (env : Env) (opts : DebugOptions) : Step :=
  (if opts.TaskrunName = "" then
      (ValidateOpts opts).andThen (askRunNameForDebug env)
    else
      { ret := Outcome.nil, opts := opts, calls := [] }).andThen fun opts =>
  let cs := (env.Clients opts.Params).1
  let getCalls := [Call.Clients opts.Params, Call.GetV1beta1 cs opts.TaskrunName "default"]
  match env.GetV1beta1 cs opts.TaskrunName "default" with
  | Except.error err => { ret := Outcome.err err, opts := opts, calls := getCalls }
  | Except.ok taskrun =>
    let podName := taskrun.Status.PodName
    let command := ["sh"]
    let execOptions : PodExecOptions :=
      { Command := command, Stdin := true, Stdout := true, Stderr := true, TTY := true,
        Container := "step-breakpoint" }
    match cs with
    | none => { ret := Outcome.panic, opts := opts, calls := getCalls }
    | some clients =>
      let request := execRequest podName execOptions
      let execCalls := getCalls ++ [Call.NewSPDYExecutor clients "POST" request]
      match env.NewSPDYExecutor clients "POST" request with
      | Except.error err => { ret := Outcome.err err, opts := opts, calls := execCalls }
      | Except.ok exec =>
        match opts.Stream with
        | none =>
          { ret := Outcome.panic, opts := opts, calls := execCalls ++ [Call.Println request] }
        | some stream =>
          let streamCalls := execCalls ++ [Call.Println request, Call.Stream exec stream true]
          match env.Stream exec stream true with
          | some err =>
            { ret := Outcome.err ("error in Stream: " ++ err), opts := opts,
              calls := streamCalls }
          | none => { ret := Outcome.nil, opts := opts, calls := streamCalls }

/-- The standard streams of the cobra command (`cmd.InOrStdin()`,
`cmd.OutOrStdout()`, `cmd.OutOrStderr()`). -/
structure Command where
  InOrStdin : String
  OutOrStdout : String
  OutOrStderr : String
deriving DecidableEq, Repr

/-- The options `debugCommand` creates and registers its flags on: only
`Params` is set, `--last` defaults to false and `--limit` to `defaultLimit`
(a constant of the package declared outside this file). -/
def debugCommand (p : cli.Params) (defaultLimit : Int) : DebugOptions :=
  { Params := p, TaskrunName := "", DebugTaskrunName := "", Last := false, Limit := defaultLimit,
    AskOpts := none, Stream := none }

/-- The `RunE` closure of `debugCommand`, run on the options `opts` it
captured with the positional arguments `args`. -/
def RunE (env : Env) (cmd : Command) (opts : DebugOptions) (args : List String) : Step :=
  let opts1 :=
    match args with
    | [] => opts
    | a0 :: _ => { opts with TaskrunName := a0 }
  let opts2 :=
    { opts1 with
      Stream := some { In := cmd.InOrStdin, Out := cmd.OutOrStdout, Err := cmd.OutOrStderr } }
  runDebug env opts2

/-! ## Vocabulary of the statements -/

/-- The first whitespace-delimited field of `s`, read off the string itself:
skip the leading white space, then take the characters up to the next white
space (the empty string when `s` has no other character). -/
def firstField (s : String) : String :=
  String.mk ((s.data.dropWhile isSpace).takeWhile fun c => !isSpace c)

/-- Whether `s` contains at least one non-whitespace character. -/
def hasNonSpace (s : String) : Bool := s.data.any fun c => !isSpace c

/-- Whether `s` contains a whitespace character. -/
def hasSpace (s : String) : Bool := s.data.any isSpace

/-- Calls to the TaskRun lister. -/
def Call.isList : Call → Bool
  | Call.GetAllTaskRuns _ _ => true
  | _ => false

/-- Calls to the interactive selection. -/
def Call.isSelect : Call → Bool
  | Call.surveyAsk _ _ _ _ => true
  | _ => false

/-- Calls that look a TaskRun up. -/
def Call.isLookup : Call → Bool
  | Call.GetV1beta1 _ _ _ => true
  | _ => false

/-- Calls that hand an exec request to the executor. -/
def Call.isExec : Call → Bool
  | Call.NewSPDYExecutor _ _ _ => true
  | _ => false

/-! ## Concrete inputs -/

/-- An environment whose lister answers `trs`, whose selection answers `ans`,
whose client set is available, whose lookup finds a TaskRun running in pod
`name ++ "-pod"`, and whose executor and stream succeed. -/
def exEnv (trs : Except String (List String)) (ans : Except String String) : Env :=
  { GetAllTaskRuns := fun _ _ => trs
    surveyAsk := fun _ _ _ _ => ans
    Clients := fun _ => (some { id := 1 }, none)
    GetV1beta1 := fun _ name _ => Except.ok { Name := name, Status := { PodName := name ++ "-pod" } }
    NewSPDYExecutor := fun _ _ _ => Except.ok { id := 2 }
    Stream := fun _ _ _ => none }

/-- Options of a command run in namespace `bar`, with the given TaskRun name,
limit and `--last` flag. -/
def exOpts (name : String) (limit : Int) (last : Bool) : DebugOptions :=
  { Params := { Namespace := "bar" }, TaskrunName := name, DebugTaskrunName := "", Last := last,
    Limit := limit, AskOpts := none, Stream := some { In := "stdin", Out := "stdout", Err := "stderr" } }

/-- A command with the standard streams. -/
def exCmd : Command := { InOrStdin := "stdin", OutOrStdout := "stdout", OutOrStderr := "stderr" }

/-- The environment `exEnv` with a lookup that finds, for every name, a TaskRun
that has no pod yet (empty `Status.PodName`). -/
def exEnvNoPod : Env :=
  { exEnv (Except.ok []) (Except.ok "x") with
    GetV1beta1 := fun _ name _ => Except.ok { Name := name, Status := { PodName := "" } } }

/-- The environment `exEnv` with `Params.Clients()` failing: a nil client set
and an error. -/
def exEnvNoClients : Env :=
  { exEnv (Except.ok []) (Except.ok "x") with
    Clients := fun _ => (none, some "couldn't get kubeConfiguration namespace") }

/-- The options of `tkn taskrun debug --limit 0` in namespace `bar`: those
`debugCommand` creates (default limit 5), with the limit set by the flag. -/
def exOptsLimit0 : DebugOptions := { debugCommand { Namespace := "bar" } 5 with Limit := 0 }

/-! ## `strings.Fields` -/

theorem fieldsLoop_head_cur (cs cur : List Char) (h : cur ≠ []) :
    (fieldsLoop cs cur).head? =
      some (String.mk (cur.reverse ++ cs.takeWhile fun c => !isSpace c)) := by
  induction cs generalizing cur with
  | nil => simp [fieldsLoop, h]
  | cons c cs ih =>
    by_cases hc : isSpace c = true
    · simp [fieldsLoop, hc, h]
    · have hc2 : isSpace c = false := by simpa using hc
      rw [fieldsLoop, if_neg hc, ih (c :: cur) (by simp)]
      simp [List.takeWhile, hc2]

theorem fieldsLoop_blank (cs : List Char) (h : ∀ c ∈ cs, isSpace c = true) :
    fieldsLoop cs [] = [] := by
  induction cs with
  | nil => simp [fieldsLoop]
  | cons c cs ih =>
    have hc : isSpace c = true := h c (by simp)
    have hcs : ∀ d ∈ cs, isSpace d = true := fun d hd => h d (by simp [hd])
    simp [fieldsLoop, hc, ih hcs]

theorem fieldsLoop_head (cs : List Char) (h : ∃ c ∈ cs, isSpace c = false) :
    (fieldsLoop cs []).head? =
      some (String.mk ((cs.dropWhile isSpace).takeWhile fun c => !isSpace c)) := by
  induction cs with
  | nil => simp at h
  | cons c cs ih =>
    by_cases hc : isSpace c = true
    · have hcs : ∃ d ∈ cs, isSpace d = false := by
        obtain ⟨d, hd, hds⟩ := h
        rcases List.mem_cons.mp hd with rfl | hd2
        · simp [hc] at hds
        · exact ⟨d, hd2, hds⟩
      simp [fieldsLoop, hc, List.dropWhile, ih hcs]
    · have hc2 : isSpace c = false := by simpa using hc
      rw [fieldsLoop, if_neg hc, fieldsLoop_head_cur cs [c] (by simp)]
      simp [List.dropWhile, List.takeWhile, hc2]

theorem hasNonSpace_iff (s : String) : hasNonSpace s = true ↔ ∃ c ∈ s.data, isSpace c = false := by
  simp [hasNonSpace, List.any_eq_true]

/-- `Fields s` starts with `firstField s` when `s` has a non-whitespace character. -/
theorem Fields_of_hasNonSpace (s : String) (h : hasNonSpace s = true) :
    ∃ rest, Fields s = firstField s :: rest := by
  have hh := fieldsLoop_head s.data ((hasNonSpace_iff s).mp h)
  unfold Fields firstField
  cases hf : fieldsLoop s.data [] with
  | nil => rw [hf] at hh; simp at hh
  | cons f rest =>
    rw [hf] at hh
    simp only [List.head?_cons, Option.some.injEq] at hh
    exact ⟨rest, by rw [hh]⟩

/-- `Fields s` is empty when `s` is empty or consists of white space only. -/
theorem Fields_of_blank (s : String) (h : hasNonSpace s = false) : Fields s = [] := by
  unfold Fields
  apply fieldsLoop_blank
  intro c hc
  have : ¬ hasNonSpace s = true := by simp [h]
  rw [hasNonSpace_iff] at this
  by_contra hcon
  exact this ⟨c, hc, by simpa using hcon⟩

/-- The first field of a string with a non-whitespace character is not empty
and contains no whitespace character. -/
theorem firstField_good (s : String) (h : hasNonSpace s = true) :
    firstField s ≠ "" ∧ hasSpace (firstField s) = false := by
  obtain ⟨c, hc, hcs⟩ := (hasNonSpace_iff s).mp h
  constructor
  · unfold firstField
    intro hcon
    have hdata : ((s.data.dropWhile isSpace).takeWhile fun c => !isSpace c) = [] := by
      have := congrArg String.data hcon
      simpa using this
    cases hd : s.data.dropWhile isSpace with
    | nil =>
      rw [List.dropWhile_eq_nil_iff] at hd
      have := hd c hc
      simp [hcs] at this
    | cons d ds =>
      have hnd : ¬ isSpace d = true := by
        have := List.head_dropWhile_not isSpace s.data (by simp [hd])
        simpa [hd] using this
      rw [hd] at hdata
      simp [List.takeWhile, hnd] at hdata
  · unfold hasSpace firstField
    rw [Bool.eq_false_iff]
    intro hcon
    rw [List.any_eq_true] at hcon
    obtain ⟨d, hd, hds⟩ := hcon
    have := List.mem_takeWhile_imp hd
    simp [hds] at this

/-! ## `ValidateOpts` -/

/-- C1: `ValidateOpts` returns an error if and only if `Limit <= 0`; the error
text is then "limit was <Limit> but must be a positive number" with the limit
in decimal; for `Limit >= 1` it returns nil; it never panics, leaves the
options unchanged and calls no external service. -/
theorem ValidateOpts_spec (opts : DebugOptions) :
    ((∃ msg, (ValidateOpts opts).ret = Outcome.err msg) ↔ opts.Limit ≤ 0) ∧
    (opts.Limit ≤ 0 → (ValidateOpts opts).ret =
      Outcome.err ("limit was " ++ fmtD opts.Limit ++ " but must be a positive number")) ∧
    (1 ≤ opts.Limit → (ValidateOpts opts).ret = Outcome.nil) ∧
    (ValidateOpts opts).opts = opts ∧ (ValidateOpts opts).calls = [] := by
  unfold ValidateOpts
  by_cases h : opts.Limit ≤ 0
  · have h1 : ¬ 1 ≤ opts.Limit := by omega
    simp [h, h1]
  · have h1 : 1 ≤ opts.Limit := by omega
    simp [h, h1]

/-- C1 at limits 0, -3 and 5. -/
theorem ValidateOpts_spec_witness :
    (exOpts "" 0 false).Limit ≤ 0 ∧
    (ValidateOpts (exOpts "" 0 false)).ret =
      Outcome.err "limit was 0 but must be a positive number" ∧
    (ValidateOpts (exOpts "" (-3) true)).ret =
      Outcome.err "limit was -3 but must be a positive number" ∧
    1 ≤ (exOpts "" 5 false).Limit ∧
    (ValidateOpts (exOpts "" 5 false)).ret = Outcome.nil :=
  ⟨by decide, (ValidateOpts_spec (exOpts "" 0 false)).2.1 (by decide),
    (ValidateOpts_spec (exOpts "" (-3) true)).2.1 (by decide), by decide,
    (ValidateOpts_spec (exOpts "" 5 false)).2.2.1 (by decide)⟩

/-! ## `Ask` and `askRunNameForDebug`, case by case -/

theorem Ask_error (env : Env) (opts : DebugOptions) (resource : String) (options : List String)
    (e : String)
    (h : env.surveyAsk resource ("Select " ++ resource ++ ":") options opts.AskOpts =
      Except.error e) :
    Ask env opts resource options =
      { ret := Outcome.err e, opts := opts,
        calls := [Call.surveyAsk resource ("Select " ++ resource ++ ":") options opts.AskOpts] } := by
  simp [Ask, h]

theorem Ask_taskrun_field (env : Env) (opts : DebugOptions) (options : List String)
    (ans f : String) (fs : List String)
    (h : env.surveyAsk "taskrun" "Select taskrun:" options opts.AskOpts = Except.ok ans)
    (hf : Fields ans = f :: fs) :
    Ask env opts "taskrun" options =
      { ret := Outcome.nil,
        opts := { opts with TaskrunName := f, DebugTaskrunName := f ++ "-debug" },
        calls := [Call.surveyAsk "taskrun" "Select taskrun:" options opts.AskOpts] } := by
  have hm : "Select " ++ "taskrun" ++ ":" = "Select taskrun:" := by decide
  simp [Ask, hm, h, hf]

theorem Ask_taskrun_blank (env : Env) (opts : DebugOptions) (options : List String)
    (ans : String)
    (h : env.surveyAsk "taskrun" "Select taskrun:" options opts.AskOpts = Except.ok ans)
    (hf : Fields ans = []) :
    Ask env opts "taskrun" options =
      { ret := Outcome.panic, opts := opts,
        calls := [Call.surveyAsk "taskrun" "Select taskrun:" options opts.AskOpts] } := by
  have hm : "Select " ++ "taskrun" ++ ":" = "Select taskrun:" := by decide
  simp [Ask, hm, h, hf]

theorem askRunNameForDebug_error (env : Env) (opts : DebugOptions) (e : String)
    (h : env.GetAllTaskRuns opts.Params opts.Limit = Except.error e) :
    askRunNameForDebug env opts =
      { ret := Outcome.err e, opts := opts,
        calls := [Call.GetAllTaskRuns opts.Params opts.Limit] } := by
  simp [askRunNameForDebug, h]

theorem askRunNameForDebug_none (env : Env) (opts : DebugOptions)
    (h : env.GetAllTaskRuns opts.Params opts.Limit = Except.ok []) :
    askRunNameForDebug env opts =
      { ret := Outcome.err "No TaskRuns found", opts := opts,
        calls := [Call.GetAllTaskRuns opts.Params opts.Limit] } := by
  simp [askRunNameForDebug, h]

theorem askRunNameForDebug_first (env : Env) (opts : DebugOptions) (t0 : String)
    (rest : List String) (f : String) (fs : List String)
    (h : env.GetAllTaskRuns opts.Params opts.Limit = Except.ok (t0 :: rest))
    (hsel : opts.Last = true ∨ (t0 :: rest).length = 1)
    (hf : Fields t0 = f :: fs) :
    askRunNameForDebug env opts =
      { ret := Outcome.nil,
        opts := { opts with TaskrunName := f, DebugTaskrunName := f ++ "-debug" },
        calls := [Call.GetAllTaskRuns opts.Params opts.Limit] } := by
  have hsel2 : (t0 :: rest).length = 1 ∨ opts.Last = true := hsel.symm
  simp only [askRunNameForDebug, h, if_pos hsel2, hf]

theorem askRunNameForDebug_first_blank (env : Env) (opts : DebugOptions) (t0 : String)
    (rest : List String)
    (h : env.GetAllTaskRuns opts.Params opts.Limit = Except.ok (t0 :: rest))
    (hsel : opts.Last = true ∨ (t0 :: rest).length = 1)
    (hf : Fields t0 = []) :
    askRunNameForDebug env opts =
      { ret := Outcome.panic, opts := opts,
        calls := [Call.GetAllTaskRuns opts.Params opts.Limit] } := by
  have hsel2 : (t0 :: rest).length = 1 ∨ opts.Last = true := hsel.symm
  simp only [askRunNameForDebug, h, if_pos hsel2, hf]

theorem askRunNameForDebug_ask (env : Env) (opts : DebugOptions) (trs : List String)
    (h : env.GetAllTaskRuns opts.Params opts.Limit = Except.ok trs)
    (hlen : 2 ≤ trs.length) (hlast : opts.Last = false) :
    askRunNameForDebug env opts =
      { ret := (Ask env opts "taskrun" trs).ret,
        opts := (Ask env opts "taskrun" trs).opts,
        calls := Call.GetAllTaskRuns opts.Params opts.Limit :: (Ask env opts "taskrun" trs).calls } := by
  cases trs with
  | nil => simp at hlen
  | cons t0 rest =>
    have hsel : ¬ ((t0 :: rest).length = 1 ∨ opts.Last = true) := by
      simp only [List.length_cons] at hlen ⊢
      rw [hlast]
      intro hcon
      rcases hcon with h1 | h2
      · omega
      · exact Bool.noConfusion h2
    simp only [askRunNameForDebug, h, if_neg hsel, ResourceNameTaskRun]

/-! ## Listing -/

/-- C8: when the lister returns an empty list without error,
`askRunNameForDebug` returns the error "No TaskRuns found" whatever `Last` and
`Limit` are, makes no selection call and leaves the options unchanged; when
the lister returns an error, that error is returned and the options are
unchanged. -/
theorem askRunNameForDebug_no_taskruns (env : Env) (opts : DebugOptions) :
    (env.GetAllTaskRuns opts.Params opts.Limit = Except.ok [] →
      (askRunNameForDebug env opts).ret = Outcome.err "No TaskRuns found" ∧
      (askRunNameForDebug env opts).calls.filter Call.isSelect = [] ∧
      (askRunNameForDebug env opts).opts = opts) ∧
    (∀ e, env.GetAllTaskRuns opts.Params opts.Limit = Except.error e →
      (askRunNameForDebug env opts).ret = Outcome.err e ∧
      (askRunNameForDebug env opts).calls.filter Call.isSelect = [] ∧
      (askRunNameForDebug env opts).opts = opts) := by
  constructor
  · intro h
    rw [askRunNameForDebug_none env opts h]
    simp [Call.isSelect]
  · intro e h
    rw [askRunNameForDebug_error env opts e h]
    simp [Call.isSelect]

/-- C8 on an empty listing (with `--last` set) and on a failing lister. -/
theorem askRunNameForDebug_no_taskruns_witness :
    (askRunNameForDebug (exEnv (Except.ok []) (Except.ok "x")) (exOpts "" 5 true)).ret =
      Outcome.err "No TaskRuns found" ∧
    (askRunNameForDebug (exEnv (Except.error "forbidden") (Except.ok "x")) (exOpts "" 5 false)).ret =
      Outcome.err "forbidden" :=
  ⟨((askRunNameForDebug_no_taskruns (exEnv (Except.ok []) (Except.ok "x"))
      (exOpts "" 5 true)).1 rfl).1,
   ((askRunNameForDebug_no_taskruns (exEnv (Except.error "forbidden") (Except.ok "x"))
      (exOpts "" 5 false)).2 "forbidden" rfl).1⟩

/-! ## Resolution by "most recent" -/

/-- C4 as stated fails: the lister returns the one-entry list `[" "]`; its
first entry has no field, so `strings.Fields(trs[0])[0]` is out of range and
`askRunNameForDebug` panics instead of returning nil. -/
theorem askRunNameForDebug_last_counterexample :
    (exEnv (Except.ok [" "]) (Except.ok "x")).GetAllTaskRuns (exOpts "" 5 false).Params
      (exOpts "" 5 false).Limit = Except.ok [" "] ∧
    [" "].length = 1 ∧
    (askRunNameForDebug (exEnv (Except.ok [" "]) (Except.ok "x")) (exOpts "" 5 false)).ret =
      Outcome.panic ∧
    (askRunNameForDebug (exEnv (Except.ok [" "]) (Except.ok "x")) (exOpts "" 5 false)).ret ≠
      Outcome.nil := by
  have h := askRunNameForDebug_first_blank (exEnv (Except.ok [" "]) (Except.ok "x"))
    (exOpts "" 5 false) " " [] rfl (Or.inr rfl) (by decide)
  refine ⟨rfl, rfl, ?_, ?_⟩
  · rw [h]
  · rw [h]
    exact fun hcon => Outcome.noConfusion hcon

/-- C4, amended: for every non-empty list returned by the lister whose first
entry contains a non-whitespace character, if `Last` is set or the list has
exactly one entry, `askRunNameForDebug` returns nil, its only call is the
listing (no prompt), `TaskrunName` becomes the first whitespace-delimited
field of the first entry and `DebugTaskrunName` that field followed by
"-debug", every other option is kept, and a lister that returns the same first
entry followed by other entries gives the same result. -/
theorem askRunNameForDebug_last (env : Env) (opts : DebugOptions) (t0 : String)
    (rest : List String)
    (hl : env.GetAllTaskRuns opts.Params opts.Limit = Except.ok (t0 :: rest))
    (hsel : opts.Last = true ∨ (t0 :: rest).length = 1)
    (hns : hasNonSpace t0 = true) :
    (askRunNameForDebug env opts).ret = Outcome.nil ∧
    (askRunNameForDebug env opts).calls = [Call.GetAllTaskRuns opts.Params opts.Limit] ∧
    (askRunNameForDebug env opts).opts =
      { opts with TaskrunName := firstField t0, DebugTaskrunName := firstField t0 ++ "-debug" } ∧
    (∀ (env2 : Env) (rest2 : List String),
      env2.GetAllTaskRuns opts.Params opts.Limit = Except.ok (t0 :: rest2) →
      (opts.Last = true ∨ (t0 :: rest2).length = 1) →
      (askRunNameForDebug env2 opts).ret = (askRunNameForDebug env opts).ret ∧
      (askRunNameForDebug env2 opts).opts = (askRunNameForDebug env opts).opts) := by
  obtain ⟨fs, hfs⟩ := Fields_of_hasNonSpace t0 hns
  rw [askRunNameForDebug_first env opts t0 rest (firstField t0) fs hl hsel hfs]
  refine ⟨rfl, rfl, rfl, ?_⟩
  intro env2 rest2 hl2 hsel2
  rw [askRunNameForDebug_first env2 opts t0 rest2 (firstField t0) fs hl2 hsel2 hfs]
  exact ⟨rfl, rfl⟩

/-- C4 (amended) with `--last` on a listing of two TaskRuns: `foo` is chosen. -/
theorem askRunNameForDebug_last_witness :
    (exEnv (Except.ok ["foo started 3 minutes ago", "baz started 1 hour ago"])
        (Except.ok "x")).GetAllTaskRuns (exOpts "" 5 true).Params (exOpts "" 5 true).Limit =
      Except.ok ["foo started 3 minutes ago", "baz started 1 hour ago"] ∧
    (exOpts "" 5 true).Last = true ∧
    hasNonSpace "foo started 3 minutes ago" = true ∧
    (askRunNameForDebug
      (exEnv (Except.ok ["foo started 3 minutes ago", "baz started 1 hour ago"]) (Except.ok "x"))
      (exOpts "" 5 true)).opts =
      { exOpts "" 5 true with TaskrunName := "foo", DebugTaskrunName := "foo-debug" } :=
  ⟨rfl, rfl, by decide,
    (askRunNameForDebug_last
      (exEnv (Except.ok ["foo started 3 minutes ago", "baz started 1 hour ago"]) (Except.ok "x"))
      (exOpts "" 5 true) "foo started 3 minutes ago" ["baz started 1 hour ago"] rfl (Or.inl rfl)
      (by decide)).2.2.1.trans (by decide)⟩

/-! ## Resolution by the interactive picker -/

/-- C5 as stated fails: the lister returns two entries, `Last` is unset and the
selection answers the entry `" "` without error; the answer has no field, so
`strings.Fields(ans)[0]` is out of range: `askRunNameForDebug` panics and
`DebugTaskrunName` stays empty instead of becoming a name followed by
"-debug". -/
theorem askRunNameForDebug_pick_counterexample :
    (exEnv (Except.ok ["foo started 3 minutes ago", " "]) (Except.ok " ")).surveyAsk
      "taskrun" "Select taskrun:" ["foo started 3 minutes ago", " "] (exOpts "" 5 false).AskOpts =
      Except.ok " " ∧
    (askRunNameForDebug (exEnv (Except.ok ["foo started 3 minutes ago", " "]) (Except.ok " "))
      (exOpts "" 5 false)).ret = Outcome.panic ∧
    (askRunNameForDebug (exEnv (Except.ok ["foo started 3 minutes ago", " "]) (Except.ok " "))
      (exOpts "" 5 false)).opts.DebugTaskrunName = "" ∧
    (askRunNameForDebug (exEnv (Except.ok ["foo started 3 minutes ago", " "]) (Except.ok " "))
      (exOpts "" 5 false)).opts.DebugTaskrunName ≠ firstField " " ++ "-debug" := by
  have h := askRunNameForDebug_ask
    (exEnv (Except.ok ["foo started 3 minutes ago", " "]) (Except.ok " ")) (exOpts "" 5 false)
    ["foo started 3 minutes ago", " "] rfl (by decide) rfl
  have h2 := Ask_taskrun_blank
    (exEnv (Except.ok ["foo started 3 minutes ago", " "]) (Except.ok " ")) (exOpts "" 5 false)
    ["foo started 3 minutes ago", " "] " " rfl (by decide)
  rw [h, h2]
  refine ⟨rfl, rfl, rfl, ?_⟩
  decide

/-- C5, amended: for every list with at least two entries and `Last` unset,
`askRunNameForDebug` makes, after the listing, exactly one selection call, for
resource "taskrun" with message "Select taskrun:" and the list itself as
options; if the selection answers, without error, a string that contains a
non-whitespace character, the function returns nil, `TaskrunName` becomes the
first whitespace-delimited field of the answer and `DebugTaskrunName` that
field followed by "-debug"; if the selection returns an error, that error is
returned and the options are unchanged. -/
theorem askRunNameForDebug_pick (env : Env) (opts : DebugOptions) (trs : List String)
    (hl : env.GetAllTaskRuns opts.Params opts.Limit = Except.ok trs)
    (hlen : 2 ≤ trs.length) (hlast : opts.Last = false) :
    (askRunNameForDebug env opts).calls =
      [Call.GetAllTaskRuns opts.Params opts.Limit,
        Call.surveyAsk "taskrun" "Select taskrun:" trs opts.AskOpts] ∧
    (askRunNameForDebug env opts).calls.filter Call.isSelect =
      [Call.surveyAsk "taskrun" "Select taskrun:" trs opts.AskOpts] ∧
    (∀ ans, env.surveyAsk "taskrun" "Select taskrun:" trs opts.AskOpts = Except.ok ans →
      hasNonSpace ans = true →
      (askRunNameForDebug env opts).ret = Outcome.nil ∧
      (askRunNameForDebug env opts).opts =
        { opts with TaskrunName := firstField ans,
                    DebugTaskrunName := firstField ans ++ "-debug" }) ∧
    (∀ e, env.surveyAsk "taskrun" "Select taskrun:" trs opts.AskOpts = Except.error e →
      (askRunNameForDebug env opts).ret = Outcome.err e ∧
      (askRunNameForDebug env opts).opts = opts) := by
  have hm : "Select " ++ "taskrun" ++ ":" = "Select taskrun:" := by decide
  rw [askRunNameForDebug_ask env opts trs hl hlen hlast]
  have hcalls : (Ask env opts "taskrun" trs).calls =
      [Call.surveyAsk "taskrun" "Select taskrun:" trs opts.AskOpts] := by
    cases hans : env.surveyAsk "taskrun" "Select taskrun:" trs opts.AskOpts with
    | error e => rw [Ask_error env opts "taskrun" trs e (by rw [hm]; exact hans), hm]
    | ok ans =>
      cases hf : Fields ans with
      | nil => rw [Ask_taskrun_blank env opts trs ans hans hf]
      | cons f fs => rw [Ask_taskrun_field env opts trs ans f fs hans hf]
  refine ⟨?_, ?_, ?_, ?_⟩
  · simp only [hcalls]
  · simp [hcalls, Call.isSelect, Call.isList]
  · intro ans hans hns
    obtain ⟨fs, hfs⟩ := Fields_of_hasNonSpace ans hns
    rw [Ask_taskrun_field env opts trs ans (firstField ans) fs hans hfs]
    exact ⟨rfl, rfl⟩
  · intro e hans
    rw [Ask_error env opts "taskrun" trs e (by rw [hm]; exact hans)]
    exact ⟨rfl, rfl⟩

/-- C5 (amended) on a listing of two TaskRuns of which the user picks the second. -/
theorem askRunNameForDebug_pick_witness :
    (exEnv (Except.ok ["foo started 3 minutes ago", "baz started 1 hour ago"])
        (Except.ok "baz started 1 hour ago")).GetAllTaskRuns (exOpts "" 5 false).Params
        (exOpts "" 5 false).Limit =
      Except.ok ["foo started 3 minutes ago", "baz started 1 hour ago"] ∧
    2 ≤ ["foo started 3 minutes ago", "baz started 1 hour ago"].length ∧
    (exOpts "" 5 false).Last = false ∧
    hasNonSpace "baz started 1 hour ago" = true ∧
    (askRunNameForDebug
      (exEnv (Except.ok ["foo started 3 minutes ago", "baz started 1 hour ago"])
        (Except.ok "baz started 1 hour ago"))
      (exOpts "" 5 false)).opts =
      { exOpts "" 5 false with TaskrunName := "baz", DebugTaskrunName := "baz-debug" } :=
  ⟨rfl, by decide, rfl, by decide,
    ((askRunNameForDebug_pick
      (exEnv (Except.ok ["foo started 3 minutes ago", "baz started 1 hour ago"])
        (Except.ok "baz started 1 hour ago"))
      (exOpts "" 5 false) ["foo started 3 minutes ago", "baz started 1 hour ago"] rfl (by decide)
      rfl).2.2.1 "baz started 1 hour ago" rfl (by decide)).2.trans (by decide)⟩

/-! ## Safety of picking the first field -/

/-- C9: when the list is non-empty and `Last` is set or the list has exactly one
entry: if the first entry contains a non-whitespace character, the field list
is non-empty (index 0 is in range), `askRunNameForDebug` returns nil and the
resulting `TaskrunName` is non-empty and free of whitespace; if the first
entry is empty or all whitespace, the field list is empty and the function
panics.  The same holds for the answer of the selection in `Ask` with resource
"taskrun". -/
theorem first_field_safety (env : Env) (opts : DebugOptions) (t0 : String) (rest : List String)
    (hl : env.GetAllTaskRuns opts.Params opts.Limit = Except.ok (t0 :: rest))
    (hsel : opts.Last = true ∨ (t0 :: rest).length = 1) :
    (hasNonSpace t0 = true →
      0 < (Fields t0).length ∧
      (askRunNameForDebug env opts).ret = Outcome.nil ∧
      (askRunNameForDebug env opts).opts.TaskrunName ≠ "" ∧
      hasSpace (askRunNameForDebug env opts).opts.TaskrunName = false) ∧
    (hasNonSpace t0 = false →
      Fields t0 = [] ∧ (askRunNameForDebug env opts).ret = Outcome.panic) ∧
    (∀ (options : List String) (ans : String),
      env.surveyAsk "taskrun" "Select taskrun:" options opts.AskOpts = Except.ok ans →
      (hasNonSpace ans = true →
        0 < (Fields ans).length ∧
        (Ask env opts "taskrun" options).ret = Outcome.nil ∧
        (Ask env opts "taskrun" options).opts.TaskrunName ≠ "" ∧
        hasSpace (Ask env opts "taskrun" options).opts.TaskrunName = false) ∧
      (hasNonSpace ans = false →
        Fields ans = [] ∧ (Ask env opts "taskrun" options).ret = Outcome.panic)) := by
  refine ⟨?_, ?_, ?_⟩
  · intro hns
    obtain ⟨fs, hfs⟩ := Fields_of_hasNonSpace t0 hns
    rw [askRunNameForDebug_first env opts t0 rest (firstField t0) fs hl hsel hfs, hfs]
    exact ⟨by simp, rfl, (firstField_good t0 hns).1, (firstField_good t0 hns).2⟩
  · intro hns
    have hf := Fields_of_blank t0 hns
    rw [askRunNameForDebug_first_blank env opts t0 rest hl hsel hf]
    exact ⟨hf, rfl⟩
  · intro options ans hans
    constructor
    · intro hns
      obtain ⟨fs, hfs⟩ := Fields_of_hasNonSpace ans hns
      rw [Ask_taskrun_field env opts options ans (firstField ans) fs hans hfs, hfs]
      exact ⟨by simp, rfl, (firstField_good ans hns).1, (firstField_good ans hns).2⟩
    · intro hns
      have hf := Fields_of_blank ans hns
      rw [Ask_taskrun_blank env opts options ans hans hf]
      exact ⟨hf, rfl⟩

/-- C9 on a one-entry listing `["foo started 3 minutes ago"]` (nil is
returned) and on a selection that answers a tab and a space (panic). -/
theorem first_field_safety_witness :
    (exEnv (Except.ok ["foo started 3 minutes ago"]) (Except.ok "\t ")).GetAllTaskRuns
        (exOpts "" 5 false).Params (exOpts "" 5 false).Limit =
      Except.ok ["foo started 3 minutes ago"] ∧
    ["foo started 3 minutes ago"].length = 1 ∧
    hasNonSpace "foo started 3 minutes ago" = true ∧
    (askRunNameForDebug (exEnv (Except.ok ["foo started 3 minutes ago"]) (Except.ok "\t "))
      (exOpts "" 5 false)).ret = Outcome.nil ∧
    hasNonSpace "\t " = false ∧
    (Ask (exEnv (Except.ok ["foo started 3 minutes ago"]) (Except.ok "\t ")) (exOpts "" 5 false)
      "taskrun" ["a", "b"]).ret = Outcome.panic :=
  ⟨rfl, rfl, by decide,
    ((first_field_safety (exEnv (Except.ok ["foo started 3 minutes ago"]) (Except.ok "\t "))
      (exOpts "" 5 false) "foo started 3 minutes ago" [] rfl (Or.inr rfl)).1 (by decide)).2.1,
    by decide,
    (((first_field_safety (exEnv (Except.ok ["foo started 3 minutes ago"]) (Except.ok "\t "))
      (exOpts "" 5 false) "foo started 3 minutes ago" [] rfl (Or.inr rfl)).2.2 ["a", "b"] "\t "
      rfl).2 (by decide)).2⟩

/-! ## `runDebug`: the resolution phase and the attach phase -/

theorem Fields_head_ne_empty (s f : String) (fs : List String) (h : Fields s = f :: fs) :
    f ≠ "" := by
  cases hns : hasNonSpace s with
  | false => rw [Fields_of_blank s hns] at h; exact List.noConfusion h
  | true =>
    obtain ⟨rest, hrest⟩ := Fields_of_hasNonSpace s hns
    rw [hrest] at h
    have hf : firstField s = f := (List.cons.inj h).1
    rw [← hf]
    exact (firstField_good s hns).1

theorem Ask_taskrun_summary (env : Env) (opts : DebugOptions) (options : List String) :
    (Ask env opts "taskrun" options).calls =
      [Call.surveyAsk "taskrun" "Select taskrun:" options opts.AskOpts] ∧
    ((Ask env opts "taskrun" options).ret = Outcome.nil →
      (Ask env opts "taskrun" options).opts.TaskrunName ≠ "") := by
  have hm : "Select " ++ "taskrun" ++ ":" = "Select taskrun:" := by decide
  cases hans : env.surveyAsk "taskrun" "Select taskrun:" options opts.AskOpts with
  | error e =>
    rw [Ask_error env opts "taskrun" options e (by rw [hm]; exact hans), hm]
    exact ⟨rfl, fun hcon => Outcome.noConfusion hcon⟩
  | ok ans =>
    cases hf : Fields ans with
    | nil =>
      rw [Ask_taskrun_blank env opts options ans hans hf]
      exact ⟨rfl, fun hcon => Outcome.noConfusion hcon⟩
    | cons f fs =>
      rw [Ask_taskrun_field env opts options ans f fs hans hf]
      exact ⟨rfl, fun _ => Fields_head_ne_empty ans f fs hf⟩

/-- What every run of `askRunNameForDebug` has in common: the first call is the
listing, any further call is a selection, and a nil return leaves a non-empty
`TaskrunName`. -/
theorem askRunNameForDebug_summary (env : Env) (opts : DebugOptions) :
    (∃ more, (askRunNameForDebug env opts).calls =
        Call.GetAllTaskRuns opts.Params opts.Limit :: more ∧
      ∀ c ∈ more, c.isSelect = true) ∧
    ((askRunNameForDebug env opts).ret = Outcome.nil →
      (askRunNameForDebug env opts).opts.TaskrunName ≠ "") := by
  cases hl : env.GetAllTaskRuns opts.Params opts.Limit with
  | error e =>
    rw [askRunNameForDebug_error env opts e hl]
    exact ⟨⟨[], rfl, by simp⟩, fun hcon => Outcome.noConfusion hcon⟩
  | ok trs =>
    cases trs with
    | nil =>
      rw [askRunNameForDebug_none env opts hl]
      exact ⟨⟨[], rfl, by simp⟩, fun hcon => Outcome.noConfusion hcon⟩
    | cons t0 rest =>
      by_cases hsel : opts.Last = true ∨ (t0 :: rest).length = 1
      · cases hf : Fields t0 with
        | nil =>
          rw [askRunNameForDebug_first_blank env opts t0 rest hl hsel hf]
          exact ⟨⟨[], rfl, by simp⟩, fun hcon => Outcome.noConfusion hcon⟩
        | cons f fs =>
          rw [askRunNameForDebug_first env opts t0 rest f fs hl hsel hf]
          exact ⟨⟨[], rfl, by simp⟩, fun _ => Fields_head_ne_empty t0 f fs hf⟩
      · have hlast : opts.Last = false := by
          cases hb : opts.Last with
          | false => rfl
          | true => exact absurd (Or.inl hb) hsel
        have hlen : 2 ≤ (t0 :: rest).length := by
          have h1 : ¬ (t0 :: rest).length = 1 := fun h => hsel (Or.inr h)
          simp only [List.length_cons] at h1 ⊢
          omega
        rw [askRunNameForDebug_ask env opts (t0 :: rest) hl hlen hlast]
        have hs := Ask_taskrun_summary env opts (t0 :: rest)
        refine ⟨⟨_, rfl, ?_⟩, hs.2⟩
        rw [hs.1]
        simp [Call.isSelect]

/-- The resolution phase of `runDebug` (validation, then listing and picking):
its calls are listings and selections only, it makes no call exactly when the
validation fails, and a nil return leaves a non-empty `TaskrunName`. -/
theorem resolve_summary (env : Env) (opts : DebugOptions) :
    (∀ c ∈ ((ValidateOpts opts).andThen (askRunNameForDebug env)).calls,
      c.isList = true ∨ c.isSelect = true) ∧
    (opts.Limit ≤ 0 → (ValidateOpts opts).andThen (askRunNameForDebug env) =
      { ret := Outcome.err ("limit was " ++ fmtD opts.Limit ++ " but must be a positive number"),
        opts := opts, calls := [] }) ∧
    (0 < opts.Limit → (ValidateOpts opts).andThen (askRunNameForDebug env) =
      askRunNameForDebug env opts) ∧
    (((ValidateOpts opts).andThen (askRunNameForDebug env)).ret = Outcome.nil →
      ((ValidateOpts opts).andThen (askRunNameForDebug env)).opts.TaskrunName ≠ "") := by
  by_cases h : opts.Limit ≤ 0
  · have hv : (ValidateOpts opts).andThen (askRunNameForDebug env) =
        { ret := Outcome.err ("limit was " ++ fmtD opts.Limit ++ " but must be a positive number"),
          opts := opts, calls := [] } := by
      simp [ValidateOpts, Step.andThen, h]
    rw [hv]
    refine ⟨by simp, fun _ => rfl, fun h2 => absurd h2 (by omega), fun hcon => Outcome.noConfusion hcon⟩
  · have hv : (ValidateOpts opts).andThen (askRunNameForDebug env) =
        askRunNameForDebug env opts := by
      simp [ValidateOpts, Step.andThen, h]
    rw [hv]
    obtain ⟨⟨more, hmore, hsel⟩, hname⟩ := askRunNameForDebug_summary env opts
    refine ⟨?_, fun h2 => absurd h2 h, fun _ => rfl, hname⟩
    intro c hc
    rw [hmore] at hc
    rcases List.mem_cons.mp hc with rfl | hc2
    · exact Or.inl rfl
    · exact Or.inr (hsel c hc2)

/-- A run of `runDebug` that starts with a non-empty `TaskrunName`: the options
are returned unchanged, the run opens with the client set and one lookup of
that name, there is no listing and no selection, and the executor is asked for
exactly when the lookup succeeds with a client set that is not nil. -/
theorem runDebug_named (env : Env) (opts : DebugOptions) (h : opts.TaskrunName ≠ "") :
    (runDebug env opts).opts = opts ∧
    (runDebug env opts).calls.take 2 =
      [Call.Clients opts.Params,
        Call.GetV1beta1 (env.Clients opts.Params).1 opts.TaskrunName "default"] ∧
    (runDebug env opts).calls.filter Call.isLookup =
      [Call.GetV1beta1 (env.Clients opts.Params).1 opts.TaskrunName "default"] ∧
    (runDebug env opts).calls.filter Call.isList = [] ∧
    (runDebug env opts).calls.filter Call.isSelect = [] ∧
    (∀ e, env.GetV1beta1 (env.Clients opts.Params).1 opts.TaskrunName "default" = Except.error e →
      (runDebug env opts).ret = Outcome.err e ∧
      (runDebug env opts).calls.filter Call.isExec = []) ∧
    (∀ t, env.GetV1beta1 (env.Clients opts.Params).1 opts.TaskrunName "default" = Except.ok t →
      (env.Clients opts.Params).1 = none →
      (runDebug env opts).ret = Outcome.panic ∧
      (runDebug env opts).calls.filter Call.isExec = []) ∧
    (∀ t cl, env.GetV1beta1 (env.Clients opts.Params).1 opts.TaskrunName "default" = Except.ok t →
      (env.Clients opts.Params).1 = some cl →
      (runDebug env opts).calls.filter Call.isExec =
        [Call.NewSPDYExecutor cl "POST"
          (execRequest t.Status.PodName
            { Command := ["sh"], Stdin := true, Stdout := true, Stderr := true, TTY := true,
              Container := "step-breakpoint" })]) := by
  unfold runDebug
  simp only [h, if_false, Step.andThen]
  split <;> (try split) <;> (try split) <;> (try split) <;> (try split) <;>
    simp_all [Call.isLookup, Call.isList, Call.isSelect, Call.isExec]

/-- A run of `runDebug` that starts with an empty `TaskrunName`: it is the
resolution phase alone when that phase does not return nil, and otherwise the
resolution phase followed by the run on the resolved options. -/
theorem runDebug_unnamed (env : Env) (opts : DebugOptions) (h : opts.TaskrunName = "") :
    (((ValidateOpts opts).andThen (askRunNameForDebug env)).ret ≠ Outcome.nil →
      runDebug env opts = (ValidateOpts opts).andThen (askRunNameForDebug env)) ∧
    (((ValidateOpts opts).andThen (askRunNameForDebug env)).ret = Outcome.nil →
      runDebug env opts =
        { ret := (runDebug env ((ValidateOpts opts).andThen (askRunNameForDebug env)).opts).ret,
          opts := (runDebug env ((ValidateOpts opts).andThen (askRunNameForDebug env)).opts).opts,
          calls := ((ValidateOpts opts).andThen (askRunNameForDebug env)).calls ++
            (runDebug env ((ValidateOpts opts).andThen (askRunNameForDebug env)).opts).calls }) := by
  constructor
  · intro hne
    unfold runDebug
    rw [if_pos h]
    generalize (ValidateOpts opts).andThen (askRunNameForDebug env) = R at hne ⊢
    cases hR : R.ret with
    | nil => exact absurd hR hne
    | err e => rw [Step.andThen]; simp [hR]
    | panic => rw [Step.andThen]; simp [hR]
  · intro hnil
    have hname := (resolve_summary env opts).2.2.2 hnil
    rw [runDebug, if_pos h]
    generalize (ValidateOpts opts).andThen (askRunNameForDebug env) = R at hnil hname ⊢
    rw [runDebug, if_neg hname]
    simp only [Step.andThen, hnil, List.nil_append]

theorem not_lookup_of_list_or_select (c : Call) (h : c.isList = true ∨ c.isSelect = true) :
    c.isLookup = false ∧ c.isExec = false := by
  cases c <;> simp_all [Call.isList, Call.isSelect, Call.isLookup, Call.isExec]

/-- Every lookup made by `runDebug` is made in namespace "default" for the
name held by some options `o`, with the client set of `o`; when that client
set is not nil and the lookup succeeds, the only request handed to the
executor is the one built for the pod of the TaskRun found. -/
theorem runDebug_lookup (env : Env) (opts : DebugOptions) (c : Call)
    (hc : c ∈ (runDebug env opts).calls) (hl : c.isLookup = true) :
    ∃ o : DebugOptions,
      c = Call.GetV1beta1 (env.Clients o.Params).1 o.TaskrunName "default" ∧
      ∀ t cl, env.GetV1beta1 (env.Clients o.Params).1 o.TaskrunName "default" = Except.ok t →
        (env.Clients o.Params).1 = some cl →
        (runDebug env opts).calls.filter Call.isExec =
          [Call.NewSPDYExecutor cl "POST"
            (execRequest t.Status.PodName
              { Command := ["sh"], Stdin := true, Stdout := true, Stderr := true, TTY := true,
                Container := "step-breakpoint" })] := by
  have hres : ∀ d ∈ ((ValidateOpts opts).andThen (askRunNameForDebug env)).calls,
      d.isLookup = false ∧ d.isExec = false :=
    fun d hd => not_lookup_of_list_or_select d ((resolve_summary env opts).1 d hd)
  by_cases h : opts.TaskrunName = ""
  · by_cases hR : ((ValidateOpts opts).andThen (askRunNameForDebug env)).ret = Outcome.nil
    · have hrun := (runDebug_unnamed env opts h).2 hR
      have hname := (resolve_summary env opts).2.2.2 hR
      have hn := runDebug_named env _ hname
      have hlook := hn.2.2.1
      have hex := hn.2.2.2.2.2.2.2
      clear hn
      rw [hrun] at hc ⊢
      rcases List.mem_append.mp hc with hc1 | hc2
      · have hcon := (hres c hc1).1
        rw [hl] at hcon
        exact Bool.noConfusion hcon
      · refine ⟨((ValidateOpts opts).andThen (askRunNameForDebug env)).opts, ?_, ?_⟩
        · have hmem := List.mem_filter.mpr (And.intro hc2 hl)
          rw [hlook] at hmem
          exact List.mem_singleton.mp hmem
        · intro t cl ht hcl
          show List.filter Call.isExec
            (((ValidateOpts opts).andThen (askRunNameForDebug env)).calls ++ _) = _
          rw [List.filter_append, hex t cl ht hcl,
            List.filter_eq_nil_iff.mpr (fun d hd => by rw [(hres d hd).2]; exact Bool.false_ne_true)]
          rfl
    · have hrun := (runDebug_unnamed env opts h).1 hR
      rw [hrun] at hc
      have hcon := (hres c hc).1
      rw [hl] at hcon
      exact Bool.noConfusion hcon
  · have hn := runDebug_named env opts h
    refine ⟨opts, ?_, hn.2.2.2.2.2.2.2⟩
    have hmem := List.mem_filter.mpr (And.intro hc hl)
    rw [hn.2.2.1] at hmem
    exact List.mem_singleton.mp hmem

/-- The request built for a pod name the builder accepts: every builder call
takes effect. -/
theorem execRequest_valid (podName : String) (o : PodExecOptions) (hne : podName ≠ "")
    (hv : IsValidPathSegmentName podName = true) :
    execRequest podName o =
      { verb := "POST", resource := "pods", resourceName := podName, namespaceSet := true,
        ns := "default", subresource := "exec",
        params := [("command", "sh"), ("container", "step-breakpoint"), ("stdin", "true"),
          ("stdout", "true"), ("tty", "true")],
        versioned := some o, err := none } := by
  have h1 : IsValidPathSegmentName "pods" = true := by decide
  have h2 : IsValidPathSegmentName "default" = true := by decide
  have h3 : IsValidPathSegmentName "exec" = true := by decide
  simp [execRequest, Request.Post, Request.Resource, Request.Name, Request.Namespace,
    Request.SubResource, Request.Param, Request.VersionedParams, h1, h2, h3, hne, hv]

/-- The request built for the empty pod name: `Name` stores an error and every
later builder call is without effect. -/
theorem execRequest_empty (o : PodExecOptions) :
    execRequest "" o =
      { verb := "POST", resource := "pods", resourceName := "", namespaceSet := false, ns := "",
        subresource := "", params := [], versioned := none,
        err := some RequestError.nameEmpty } := by
  have h1 : IsValidPathSegmentName "pods" = true := by decide
  simp [execRequest, Request.Post, Request.Resource, Request.Name, Request.Namespace,
    Request.SubResource, Request.Param, Request.VersionedParams, h1]

/-! ## Validation inside `runDebug` -/

/-- C7: `runDebug` fails at the validation step (it returns the error "limit
was <Limit> but must be a positive number" before any call to an external
service: no listing, no prompt, no lookup, no exec request) if and only if
`TaskrunName` is empty and `Limit <= 0`, whatever `Last` is; the options are
then unchanged.  When `TaskrunName` is non-empty the limit is not read: the
run returns the same and makes the same calls for every value of `Limit`. -/
theorem runDebug_validation (env : Env) (opts : DebugOptions) :
    (((runDebug env opts).ret =
          Outcome.err ("limit was " ++ fmtD opts.Limit ++ " but must be a positive number") ∧
        (runDebug env opts).calls = []) ↔
      (opts.TaskrunName = "" ∧ opts.Limit ≤ 0)) ∧
    (opts.TaskrunName = "" → opts.Limit ≤ 0 → (runDebug env opts).opts = opts) ∧
    (opts.TaskrunName ≠ "" → ∀ l : Int,
      (runDebug env { opts with Limit := l }).ret = (runDebug env opts).ret ∧
      (runDebug env { opts with Limit := l }).calls = (runDebug env opts).calls) := by
  have hfail : opts.TaskrunName = "" → opts.Limit ≤ 0 → runDebug env opts =
      { ret := Outcome.err ("limit was " ++ fmtD opts.Limit ++ " but must be a positive number"),
        opts := opts, calls := [] } := by
    intro hname hlim
    have hR := (resolve_summary env opts).2.1 hlim
    have hrun := (runDebug_unnamed env opts hname).1 (by rw [hR]; exact fun h => Outcome.noConfusion h)
    rw [hrun, hR]
  refine ⟨⟨?_, ?_⟩, ?_, ?_⟩
  · rintro ⟨-, hcalls⟩
    by_cases hname : opts.TaskrunName = ""
    · refine ⟨hname, ?_⟩
      by_contra hlim
      have hpos : 0 < opts.Limit := by omega
      have hR := (resolve_summary env opts).2.2.1 hpos
      obtain ⟨⟨more, hmore, -⟩, -⟩ := askRunNameForDebug_summary env opts
      by_cases hnil : ((ValidateOpts opts).andThen (askRunNameForDebug env)).ret = Outcome.nil
      · have hrun := (runDebug_unnamed env opts hname).2 hnil
        rw [hrun, hR, hmore] at hcalls
        simp at hcalls
      · have hrun := (runDebug_unnamed env opts hname).1 hnil
        rw [hrun, hR, hmore] at hcalls
        simp at hcalls
    · have h2 := (runDebug_named env opts hname).2.1
      rw [hcalls] at h2
      simp at h2
  · rintro ⟨hname, hlim⟩
    rw [hfail hname hlim]
    exact ⟨rfl, rfl⟩
  · intro hname hlim
    rw [hfail hname hlim]
  · intro hname l
    unfold runDebug
    simp only [hname, if_false, Step.andThen]
    constructor <;>
      (split <;> (try split) <;> (try split) <;> (try split) <;> (try split) <;> simp_all)

/-- C7 at limit 0 with no name (validation fails before any call) and with the
name `foo` (the lookup of `foo` is made all the same). -/
theorem runDebug_validation_witness :
    (exOpts "" 0 true).TaskrunName = "" ∧ (exOpts "" 0 true).Limit ≤ 0 ∧
    (runDebug (exEnv (Except.ok ["foo started 3 minutes ago"]) (Except.ok "x"))
      (exOpts "" 0 true)).ret = Outcome.err "limit was 0 but must be a positive number" ∧
    (runDebug (exEnv (Except.ok ["foo started 3 minutes ago"]) (Except.ok "x"))
      (exOpts "" 0 true)).calls = [] ∧
    (exOpts "foo" 5 false).TaskrunName ≠ "" ∧
    (runDebug (exEnv (Except.ok []) (Except.ok "x")) (exOpts "foo" 0 false)).ret =
      (runDebug (exEnv (Except.ok []) (Except.ok "x")) (exOpts "foo" 5 false)).ret :=
  ⟨rfl, by decide,
    (((runDebug_validation (exEnv (Except.ok ["foo started 3 minutes ago"]) (Except.ok "x"))
      (exOpts "" 0 true)).1.mpr ⟨rfl, by decide⟩).1.trans (by decide)),
    ((runDebug_validation (exEnv (Except.ok ["foo started 3 minutes ago"]) (Except.ok "x"))
      (exOpts "" 0 true)).1.mpr ⟨rfl, by decide⟩).2,
    by decide,
    ((runDebug_validation (exEnv (Except.ok []) (Except.ok "x")) (exOpts "foo" 5 false)).2.2
      (by decide) 0).1⟩

/-! ## Resolution by name -/

/-- C3 as stated fails on its last part: for `tkn taskrun debug --limit 0` the
argument list is empty and `TaskrunName` is empty, yet resolution does not
reach the list/picker path: `runDebug` returns the validation error and makes
no call at all, so nothing is listed and nothing is picked. -/
theorem RunE_by_name_counterexample :
    exOptsLimit0.TaskrunName = "" ∧
    (RunE (exEnv (Except.ok ["foo started 3 minutes ago"]) (Except.ok "x")) exCmd exOptsLimit0
      []).ret = Outcome.err "limit was 0 but must be a positive number" ∧
    (RunE (exEnv (Except.ok ["foo started 3 minutes ago"]) (Except.ok "x")) exCmd exOptsLimit0
      []).calls = [] ∧
    (RunE (exEnv (Except.ok ["foo started 3 minutes ago"]) (Except.ok "x")) exCmd exOptsLimit0
      []).calls.head? ≠ some (Call.GetAllTaskRuns exOptsLimit0.Params exOptsLimit0.Limit) := by
  decide

/-- C3, amended: with a non-empty argument list whose first argument `a0` is a
non-empty string, `RunE` runs `runDebug` with `TaskrunName` set to `a0`
(further arguments are ignored); that run makes no listing and no selection
call, its one lookup is for `a0`, and it leaves `TaskrunName` at `a0` and
`DebugTaskrunName` as it was.  With an empty argument list `runDebug` runs on
the `TaskrunName` the options already had, which is empty on the options
`debugCommand` creates; with an empty name the first call is then the listing
when the limit is positive, and when the limit is not positive the run stops
at the validation error before any call. -/
theorem RunE_by_name (env : Env) (cmd : Command) (opts : DebugOptions) (a0 : String)
    (rest : List String) (h : a0 ≠ "") :
    RunE env cmd opts (a0 :: rest) =
      runDebug env { opts with
        TaskrunName := a0,
        Stream := some { In := cmd.InOrStdin, Out := cmd.OutOrStdout, Err := cmd.OutOrStderr } } ∧
    RunE env cmd opts (a0 :: rest) = RunE env cmd opts [a0] ∧
    (RunE env cmd opts (a0 :: rest)).calls.filter Call.isLookup =
      [Call.GetV1beta1 (env.Clients opts.Params).1 a0 "default"] ∧
    (RunE env cmd opts (a0 :: rest)).calls.filter Call.isList = [] ∧
    (RunE env cmd opts (a0 :: rest)).calls.filter Call.isSelect = [] ∧
    (RunE env cmd opts (a0 :: rest)).opts.TaskrunName = a0 ∧
    (RunE env cmd opts (a0 :: rest)).opts.DebugTaskrunName = opts.DebugTaskrunName ∧
    RunE env cmd opts [] =
      runDebug env { opts with
        Stream := some { In := cmd.InOrStdin, Out := cmd.OutOrStdout, Err := cmd.OutOrStderr } } ∧
    (∀ (p : cli.Params) (d : Int), (debugCommand p d).TaskrunName = "") ∧
    (opts.TaskrunName = "" → 0 < opts.Limit →
      (RunE env cmd opts []).calls.head? = some (Call.GetAllTaskRuns opts.Params opts.Limit)) ∧
    (opts.TaskrunName = "" → opts.Limit ≤ 0 →
      (RunE env cmd opts []).ret =
        Outcome.err ("limit was " ++ fmtD opts.Limit ++ " but must be a positive number") ∧
      (RunE env cmd opts []).calls = []) := by
  have hn := runDebug_named env
    { opts with
      TaskrunName := a0,
      Stream := some { In := cmd.InOrStdin, Out := cmd.OutOrStdout, Err := cmd.OutOrStderr } } h
  refine ⟨rfl, rfl, ?_, ?_, ?_, ?_, ?_, rfl, fun _ _ => rfl, ?_, ?_⟩
  · exact hn.2.2.1
  · exact hn.2.2.2.1
  · exact hn.2.2.2.2.1
  · show (runDebug env _).opts.TaskrunName = a0
    rw [hn.1]
  · show (runDebug env _).opts.DebugTaskrunName = opts.DebugTaskrunName
    rw [hn.1]
  · intro hname hpos
    show (runDebug env _).calls.head? = _
    have hname2 : ({ opts with
        Stream := some { In := cmd.InOrStdin, Out := cmd.OutOrStdout, Err := cmd.OutOrStderr } } :
        DebugOptions).TaskrunName = "" := hname
    have hR := (resolve_summary env { opts with
        Stream := some { In := cmd.InOrStdin, Out := cmd.OutOrStdout, Err := cmd.OutOrStderr } }).2.2.1
        hpos
    obtain ⟨⟨more, hmore, -⟩, -⟩ := askRunNameForDebug_summary env { opts with
        Stream := some { In := cmd.InOrStdin, Out := cmd.OutOrStdout, Err := cmd.OutOrStderr } }
    by_cases hnil : ((ValidateOpts { opts with
        Stream := some { In := cmd.InOrStdin, Out := cmd.OutOrStdout, Err := cmd.OutOrStderr } }).andThen
        (askRunNameForDebug env)).ret = Outcome.nil
    · rw [(runDebug_unnamed env _ hname2).2 hnil, hR, hmore]
      rfl
    · rw [(runDebug_unnamed env _ hname2).1 hnil, hR, hmore]
      rfl
  · intro hname hlim
    show (runDebug env _).ret = _ ∧ (runDebug env _).calls = _
    have hname2 : ({ opts with
        Stream := some { In := cmd.InOrStdin, Out := cmd.OutOrStdout, Err := cmd.OutOrStderr } } :
        DebugOptions).TaskrunName = "" := hname
    have hR := (resolve_summary env { opts with
        Stream := some { In := cmd.InOrStdin, Out := cmd.OutOrStdout, Err := cmd.OutOrStderr } }).2.1
        hlim
    rw [(runDebug_unnamed env _ hname2).1 (by rw [hR]; exact fun hcon => Outcome.noConfusion hcon),
      hR]
    exact ⟨rfl, rfl⟩

/-- C3 (amended) on `tkn taskrun debug foo extra`: `foo` is looked up, nothing
is listed. -/
theorem RunE_by_name_witness :
    "foo" ≠ "" ∧
    (RunE (exEnv (Except.ok ["baz started 1 hour ago"]) (Except.ok "x")) exCmd
      (debugCommand { Namespace := "bar" } 5) ["foo", "extra"]).calls.filter Call.isLookup =
      [Call.GetV1beta1 (some { id := 1 }) "foo" "default"] ∧
    (RunE (exEnv (Except.ok ["baz started 1 hour ago"]) (Except.ok "x")) exCmd
      (debugCommand { Namespace := "bar" } 5) ["foo", "extra"]).calls.filter Call.isList = [] ∧
    (RunE (exEnv (Except.ok ["baz started 1 hour ago"]) (Except.ok "x")) exCmd
      (debugCommand { Namespace := "bar" } 5) ["foo", "extra"]).opts.TaskrunName = "foo" :=
  ⟨by decide,
    (RunE_by_name (exEnv (Except.ok ["baz started 1 hour ago"]) (Except.ok "x")) exCmd
      (debugCommand { Namespace := "bar" } 5) "foo" ["extra"] (by decide)).2.2.1,
    (RunE_by_name (exEnv (Except.ok ["baz started 1 hour ago"]) (Except.ok "x")) exCmd
      (debugCommand { Namespace := "bar" } 5) "foo" ["extra"] (by decide)).2.2.2.1,
    (RunE_by_name (exEnv (Except.ok ["baz started 1 hour ago"]) (Except.ok "x")) exCmd
      (debugCommand { Namespace := "bar" } 5) "foo" ["extra"] (by decide)).2.2.2.2.2.1⟩

/-! ## The exec request -/

/-- C6 as stated fails.  When the lookup of `foo` succeeds with a TaskRun that
has no pod yet (`Status.PodName` empty), `Name` rejects the empty name and the
later builder calls are without effect: the one request handed to the executor
has no resource name, no subresource "exec" and no parameter.  When
`Params.Clients()` fails, its error is discarded and the client set is nil: a
lookup that succeeds is followed by a nil dereference and no request is built. -/
theorem runDebug_exec_request_counterexample :
    exEnvNoPod.GetV1beta1 (some { id := 1 }) "foo" "default" =
      Except.ok { Name := "foo", Status := { PodName := "" } } ∧
    (runDebug exEnvNoPod (exOpts "foo" 5 false)).calls.filter Call.isExec =
      [Call.NewSPDYExecutor { id := 1 } "POST"
        { verb := "POST", resource := "pods", resourceName := "", namespaceSet := false, ns := "",
          subresource := "", params := [], versioned := none,
          err := some RequestError.nameEmpty }] ∧
    exEnvNoClients.GetV1beta1 none "foo" "default" =
      Except.ok { Name := "foo", Status := { PodName := "foo-pod" } } ∧
    (runDebug exEnvNoClients (exOpts "foo" 5 false)).ret = Outcome.panic ∧
    (runDebug exEnvNoClients (exOpts "foo" 5 false)).calls.filter Call.isExec = [] :=
  ⟨rfl, by decide, rfl, by decide, by decide⟩

/-- C6, amended: whenever `runDebug` looks a TaskRun up with a client set that
is not nil and the lookup succeeds with `t`, whose `Status.PodName` is a name
the request builder accepts (not empty, not "." or "..", without "/" and "%"),
exactly one request is handed to the executor, with method POST, for resource
"pods", resource name `t.Status.PodName`, subresource "exec" and the
parameters command "sh", container "step-breakpoint", stdin, stdout and tty
"true", and no builder error.  This holds for every value of the options, so
the pod name does not depend on `Limit`, `Last` or `DebugTaskrunName`; on the
by-name path changing them leaves the list of calls the same. -/
theorem runDebug_exec_request (env : Env) (opts : DebugOptions) (cl : Clients)
    (name ns : String) (t : TaskRun)
    (hcall : Call.GetV1beta1 (some cl) name ns ∈ (runDebug env opts).calls)
    (hget : env.GetV1beta1 (some cl) name ns = Except.ok t)
    (hne : t.Status.PodName ≠ "")
    (hv : IsValidPathSegmentName t.Status.PodName = true) :
    ∃ req : Request,
      (runDebug env opts).calls.filter Call.isExec = [Call.NewSPDYExecutor cl "POST" req] ∧
      req.verb = "POST" ∧ req.resource = "pods" ∧ req.resourceName = t.Status.PodName ∧
      req.subresource = "exec" ∧
      req.params = [("command", "sh"), ("container", "step-breakpoint"), ("stdin", "true"),
        ("stdout", "true"), ("tty", "true")] ∧
      req.err = none ∧
      (opts.TaskrunName ≠ "" → ∀ (l : Int) (b : Bool) (d : String),
        (runDebug env { opts with Limit := l, Last := b, DebugTaskrunName := d }).calls =
          (runDebug env opts).calls) := by
  obtain ⟨o, ho, hexec⟩ := runDebug_lookup env opts _ hcall rfl
  have hcs : some cl = (env.Clients o.Params).1 := (Call.GetV1beta1.inj ho).1
  have hnm : name = o.TaskrunName := (Call.GetV1beta1.inj ho).2.1
  have hns : ns = "default" := (Call.GetV1beta1.inj ho).2.2
  subst hnm hns
  rw [hcs] at hget
  have hreq := hexec t cl hget hcs.symm
  rw [execRequest_valid _ _ hne hv] at hreq
  refine ⟨_, hreq, rfl, rfl, rfl, rfl, rfl, rfl, ?_⟩
  intro hname l b d
  unfold runDebug
  simp only [hname, if_false, Step.andThen]
  split <;> (try split) <;> (try split) <;> (try split) <;> (try split) <;> simp_all

/-- C6 (amended) on `foo`, whose TaskRun runs in pod `foo-pod`. -/
theorem runDebug_exec_request_witness :
    Call.GetV1beta1 (some { id := 1 }) "foo" "default" ∈
      (runDebug (exEnv (Except.ok []) (Except.ok "x")) (exOpts "foo" 5 false)).calls ∧
    (exEnv (Except.ok []) (Except.ok "x")).GetV1beta1 (some { id := 1 }) "foo" "default" =
      Except.ok { Name := "foo", Status := { PodName := "foo" ++ "-pod" } } ∧
    "foo" ++ "-pod" ≠ "" ∧
    IsValidPathSegmentName ("foo" ++ "-pod") = true ∧
    ∃ req : Request,
      (runDebug (exEnv (Except.ok []) (Except.ok "x")) (exOpts "foo" 5 false)).calls.filter
        Call.isExec = [Call.NewSPDYExecutor { id := 1 } "POST" req] ∧
      req.resourceName = "foo" ++ "-pod" ∧ req.subresource = "exec" :=
  ⟨by decide, rfl, by decide, by decide,
    (runDebug_exec_request (exEnv (Except.ok []) (Except.ok "x")) (exOpts "foo" 5 false)
      { id := 1 } "foo" "default" { Name := "foo", Status := { PodName := "foo" ++ "-pod" } }
      (by decide) rfl (by decide) (by decide)).imp
      fun _ hreq => ⟨hreq.1, hreq.2.2.2.1, hreq.2.2.2.2.1⟩⟩

/-! ## The namespace -/

/-- C2 at the command's own example, `tkn taskrun debug foo -n bar`: the
parameters hold namespace "bar", yet the TaskRun `foo` is looked up in
namespace "default" and the exec request is made in namespace "default". -/
theorem RunE_namespace_default :
    (debugCommand { Namespace := "bar" } 5).Params.Namespace = "bar" ∧
    (RunE (exEnv (Except.ok []) (Except.ok "x")) exCmd (debugCommand { Namespace := "bar" } 5)
      ["foo"]).calls.filter Call.isLookup =
      [Call.GetV1beta1 (some { id := 1 }) "foo" "default"] ∧
    (RunE (exEnv (Except.ok []) (Except.ok "x")) exCmd (debugCommand { Namespace := "bar" } 5)
      ["foo"]).calls.filter Call.isExec =
      [Call.NewSPDYExecutor { id := 1 } "POST"
        { verb := "POST", resource := "pods", resourceName := "foo-pod", namespaceSet := true,
          ns := "default", subresource := "exec",
          params := [("command", "sh"), ("container", "step-breakpoint"), ("stdin", "true"),
            ("stdout", "true"), ("tty", "true")],
          versioned :=
            some
              { Command := ["sh"], Stdin := true, Stdout := true, Stderr := true, TTY := true,
                Container := "step-breakpoint" },
          err := none }] := by
  decide

end Tkn
